import Mathlib

/-!
Shallow embedding of the data-acquisition and reconciliation pipeline of
`gpu_top.py`: `run_cmd`, `parse_csv`, `get_gpu_stats`,
`get_compute_processes`, `get_pmon_once`, `enrich_procs_with_pmon` and
`snapshot`.  Text is modelled as `List Char`; Python dicts are modelled as
insertion-ordered association lists with update-in-place assignment.
-/

namespace GpuTop

/-! ### Text primitives (Python `str` operations on `List Char`) -/

/-- Python `str.split(sep)` for a one-character separator: split at every
character satisfying `p`, keeping empty segments. -/
def splitBy (p : Char → Bool) (l : List Char) : List (List Char) :=
  l.foldr (fun ch acc =>
    if p ch then [] :: acc
    else
      match acc with
      | [] => [[ch]]
      | a :: as => (ch :: a) :: as) [[]]

/-- Python `str.strip()`: drop whitespace from both ends. -/
def trimChars (l : List Char) : List Char :=
  ((l.dropWhile Char.isWhitespace).reverse.dropWhile Char.isWhitespace).reverse

/-- Python `str.split()` with no separator: split on whitespace runs,
dropping empty fields. -/
def splitWs (l : List Char) : List (List Char) :=
  (splitBy Char.isWhitespace l).filter (· ≠ [])

/-- Python `str.startswith('#')`. -/
def startsHash : List Char → Bool
  | [] => false
  | c :: _ => c = '#'

/-- Numeric value of a nonempty all-digit string, `none` otherwise. -/
def digitsVal? (l : List Char) : Option Nat :=
  if l ≠ [] ∧ l.all Char.isDigit then
    some (l.foldl (fun n c => 10 * n + (c.toNat - '0'.toNat)) 0)
  else none

/-- Python `int(s)` on a decimal string: surrounding whitespace and an
optional sign are accepted; `none` models the `ValueError` raised on
anything else. -/
def pyInt? (s : List Char) : Option Int :=
  match trimChars s with
  | '-' :: rest => (digitsVal? rest).map (fun n => -(n : Int))
  | '+' :: rest => (digitsVal? rest).map (fun n => (n : Int))
  | t => (digitsVal? t).map (fun n => (n : Int))

/-- Digit value of a possibly empty digit string (`""` reads as 0). -/
def digitsValD (l : List Char) : Nat :=
  l.foldl (fun n c => 10 * n + (c.toNat - '0'.toNat)) 0

/-- Python `float(s)` on plain decimal notation (optional sign, digits,
optional fractional part; no exponent / `inf` / `nan`), with the value kept
as an exact rational; `none` models the `ValueError` on anything else. -/
def pyFloat? (s : List Char) : Option Rat :=
  let t := trimChars s
  let signed : Rat × List Char :=
    match t with
    | '-' :: rest => (-1, rest)
    | '+' :: rest => (1, rest)
    | t => (1, t)
  match splitBy (· = '.') signed.2 with
  | [a] => (digitsVal? a).map (fun n => signed.1 * n)
  | [a, b] =>
    if (a ≠ [] ∨ b ≠ []) ∧ a.all Char.isDigit ∧ b.all Char.isDigit then
      some (signed.1 * ((digitsValD a : Rat) + (digitsValD b : Rat) / (10 : Rat) ^ b.length))
    else none
  | _ => none

/-- `os.path.basename` on POSIX paths: the part after the last slash. -/
def basename (l : List Char) : List Char :=
  (splitBy (· = '/') l).getLastD []

/-! ### Records (the dict literals built by the readers) -/

/-- One device row of `get_gpu_stats` (the dict literal at gpu_top.py:49).
Power fields are rationals because Python parses them with `float`. -/
structure Gpu where
  uuid : String
  index : Int
  name : String
  temp : Int
  util : Int
  mem_used : Int
  mem_total : Int
  pwr : Option Rat
  pwr_lim : Option Rat
  sm_clock : Option Int
  fan : Option Int
  deriving Repr, DecidableEq

/-- One process row of `get_compute_processes` (gpu_top.py:77); `sm` and
`mem_util` start as `None` placeholders and are written only by
`enrich_procs_with_pmon`. -/
structure Proc where
  pid : Int
  name : String
  mem : Int
  uuid : String
  sm : Option Int
  mem_util : Option Int
  deriving Repr, DecidableEq

/-- One row of `get_pmon_once` (gpu_top.py:110). -/
structure Pmon where
  gpu : Int
  pid : Option Int
  sm : Option Int
  mem : Option Int
  cmd : String
  deriving Repr, DecidableEq

/-! ### Process executor -/

/-- The three ways `subprocess.check_output` can come back inside
`run_cmd`: a normal exit with output, a `CalledProcessError` carrying the
captured output, or a `FileNotFoundError` for a missing binary. -/
inductive ExecResult where
  | ok (out : String)
  | nonzeroExit (out : String)
  | missingBinary
  deriving Repr, DecidableEq

/-- The command runner at gpu_top.py:12 (its Python name is not a legal
Lean identifier): return the captured output, also on non-zero exit, and
the empty string when the binary does not exist. -/
def runCmd : ExecResult → String
  | .ok out => out
  | .nonzeroExit out => out
  | .missingBinary => ""

/-! ### Tabular parsing -/

/-- `parse_csv` (gpu_top.py:26): strip the whole text, split into lines,
skip blank lines, split each remaining line on commas and strip every
field. -/
def parse_csv (lines : List Char) : List (List (List Char)) :=
  (splitBy (· = '\n') (trimChars lines)).filterMap fun ln =>
    if trimChars ln = [] then none
    else some ((splitBy (· = ',') ln).map trimChars)

/-- The `int(r[i]) if r[i] != 'N/A' else None` pattern for optional fields:
outer `none` is a conversion failure (row dropped), `some none` is the
"not applicable" sentinel. -/
def optOf (conv : List Char → Option α) (s : List Char) : Option (Option α) :=
  if s = "N/A".data then some none else (conv s).map some

/-- `Option.bind` again, as a plain definition (spelling the row parsers
with it keeps each failure point explicit). -/
@[noinline] def obind (x : Option α) (f : α → Option β) : Option β :=
  match x with
  | none => none
  | some a => f a

/-! ### Device reader -/

/-- The per-row body of `get_gpu_stats`'s try-block (gpu_top.py:48-61): any
out-of-range index or conversion failure yields `none`, i.e. the row is
dropped.  A row with only 10 fields still succeeds, with `fan := none`,
because of the `len(r) > 10` guard. -/
def parseGpuRow (r : List (List Char)) : Option Gpu :=
  obind r[0]? fun uuid =>
  obind r[1]? fun s1 => obind (pyInt? s1) fun index =>
  obind r[2]? fun name =>
  obind r[3]? fun s3 => obind (pyInt? s3) fun temp =>
  obind r[4]? fun s4 => obind (pyInt? s4) fun util =>
  obind r[5]? fun s5 => obind (pyInt? s5) fun mem_used =>
  obind r[6]? fun s6 => obind (pyInt? s6) fun mem_total =>
  obind r[7]? fun s7 => obind (optOf pyFloat? s7) fun pwr =>
  obind r[8]? fun s8 => obind (optOf pyFloat? s8) fun pwr_lim =>
  obind r[9]? fun s9 => obind (optOf pyInt? s9) fun sm_clock =>
  obind (match r[10]? with
         | none => some none
         | some s10 => optOf pyInt? s10) fun fan =>
  some { uuid := ⟨uuid⟩, index, name := ⟨name⟩, temp, util, mem_used,
         mem_total, pwr, pwr_lim, sm_clock, fan }

/-- `get_gpu_stats` (gpu_top.py:36) as a function of the device-query
output: parse the CSV and keep the rows whose conversions all succeed. -/
def get_gpu_stats (out : List Char) : List Gpu :=
  (parse_csv out).filterMap parseGpuRow

/-! ### Process reader -/

/-- The per-row body of `get_compute_processes`'s try-block
(gpu_top.py:76-87): name is the basename (`"-"` when empty), an `N/A`
memory reads as 0, and the utilization placeholders start as `none`. -/
def parseProcRow (r : List (List Char)) : Option Proc :=
  obind r[0]? fun s0 => obind (pyInt? s0) fun pid =>
  obind r[1]? fun n =>
  obind r[2]? fun m =>
  obind (if m = "N/A".data then some 0 else pyInt? m) fun mem =>
  obind r[3]? fun uuid =>
  some { pid, name := ⟨if n = [] then "-".data else basename n⟩, mem,
         uuid := ⟨uuid⟩, sm := none, mem_util := none }

/-- `get_compute_processes` (gpu_top.py:68). -/
def get_compute_processes (out : List Char) : List Proc :=
  (parse_csv out).filterMap parseProcRow

/-! ### Utilization sampler -/

/-- Body of `get_pmon_once`'s loop after the arity check (gpu_top.py:102-110):
`-` is the "no data" sentinel for pid/sm/mem; the device-index field has no
sentinel case, so any non-integer there drops the row. -/
def parsePmonRow (parts : List (List Char)) : Option Pmon :=
  if parts.length < 9 then none
  else
    obind parts[0]? fun s0 => obind (pyInt? s0) fun gpu =>
    obind parts[1]? fun p1 =>
    obind (if p1 = "-".data then some none else (pyInt? p1).map some) fun pid =>
    obind parts[3]? fun p3 =>
    obind (if p3 = "-".data then some none else (pyInt? p3).map some) fun sm =>
    obind parts[4]? fun p4 =>
    obind (if p4 = "-".data then some none else (pyInt? p4).map some) fun mem =>
    obind parts[8]? fun cmd =>
    some { gpu, pid, sm, mem, cmd := ⟨cmd⟩ }

/-- One line of `get_pmon_once`'s loop (gpu_top.py:96-100): strip, skip
blank and `#` lines, split on whitespace, then parse. -/
def pmonLine? (ln : List Char) : Option Pmon :=
  if (trimChars ln).isEmpty || startsHash (trimChars ln) then none
  else parsePmonRow (splitWs (trimChars ln))

/-- `get_pmon_once` (gpu_top.py:91) as a function of the monitoring-sample
output. -/
def get_pmon_once (out : List Char) : List Pmon :=
  (splitBy (· = '\n') out).filterMap pmonLine?

/-! ### Python dict model -/

/-- Python dict assignment `m[k] = v`: update in place when the key is
present (keeping its insertion position), else append. -/
def dictInsert [DecidableEq κ] : List (κ × ν) → κ → ν → List (κ × ν)
  | [], k, v => [(k, v)]
  | (a, b) :: rest, k, v =>
    if a = k then (a, v) :: rest else (a, b) :: dictInsert rest k v

/-- Python `m.get(k)` (and, via `isSome`, `k in m`). -/
def dictGet? [DecidableEq κ] : List (κ × ν) → κ → Option ν
  | [], _ => none
  | (a, b) :: rest, k => if a = k then some b else dictGet? rest k

/-- A Python dict comprehension over a list of pairs: later pairs overwrite
earlier ones (last-write-wins). -/
def dictOf [DecidableEq κ] (l : List (κ × ν)) : List (κ × ν) :=
  l.foldl (fun m kv => dictInsert m kv.1 kv.2) []

/-! ### Reconciler -/

/-- The `(gpu, pid) → sample` lookup built at gpu_top.py:117, keeping only
samples with a non-`None` pid.  The first key component is an `Option`
because a process's side of the key is `uuid_to_index.get(uuid)`, which may
be `None`. -/
def pmonIx (pmon : List Pmon) : List ((Option Int × Int) × Pmon) :=
  dictOf (pmon.filterMap fun e => e.pid.map fun p => ((some e.gpu, p), e))

/-- `enrich_procs_with_pmon` (gpu_top.py:116): for each process, look up
`(uuid_to_index.get(uuid), pid)` and copy the matching sample's `sm`/`mem`
onto the process; a miss leaves the process unchanged. -/
def enrich_procs_with_pmon (procs : List Proc) (pmon : List Pmon)
    (uuid_to_index : List (String × Int)) : List Proc :=
  procs.map fun p =>
    match dictGet? (pmonIx pmon) (dictGet? uuid_to_index p.uuid, p.pid) with
    | some e => { p with sm := e.sm, mem_util := e.mem }
    | none => p

/-- `{g['uuid']: g['index'] for g in gpus}` (gpu_top.py:141). -/
def uuidToIndex (gpus : List Gpu) : List (String × Int) :=
  dictOf (gpus.map fun g => (g.uuid, g.index))

/-- The first grouping loop of `snapshot` (gpu_top.py:147-148): one
(initially empty) entry per device index. -/
def initPerGpu (gpus : List Gpu) : List (Int × List Proc) :=
  gpus.foldl (fun m g => dictInsert m g.index []) []

/-- One iteration of the second grouping loop (gpu_top.py:149-152): append
the process under its resolved device index, but only when that index is
resolvable and already a key of the grouping. -/
def groupStep (u2i : List (String × Int)) (m : List (Int × List Proc))
    (p : Proc) : List (Int × List Proc) :=
  match dictGet? u2i p.uuid with
  | some idx =>
    match dictGet? m idx with
    | some ps => dictInsert m idx (ps ++ [p])
    | none => m
  | none => m

/-- The grouping loops of `snapshot` (gpu_top.py:146-152). -/
def buildPerGpu (gpus : List Gpu) (procs : List Proc)
    (u2i : List (String × Int)) : List (Int × List Proc) :=
  procs.foldl (groupStep u2i) (initPerGpu gpus)

/-- The sort key at gpu_top.py:155: `(x['sm'] or 0, x['mem'] or 0)`; `sm`
is an optional int (`or 0` turns `None` into 0) and `mem` a plain int
(there `or 0` is the identity). -/
def procKey (p : Proc) : Int × Int := (p.sm.getD 0, p.mem)

/-- Python tuple `<=` on int pairs, lexicographic. -/
def tupLe (a b : Int × Int) : Bool :=
  a.1 < b.1 || (a.1 = b.1 && a.2 ≤ b.2)

/-- The order produced by `list.sort(key=..., reverse=True)` at
gpu_top.py:155: `a` may precede `b` exactly when `key b <= key a`. -/
def keyDescRel (a b : Proc) : Prop := tupLe (procKey b) (procKey a) = true

instance : DecidableRel keyDescRel := fun _ _ =>
  inferInstanceAs (Decidable (_ = true))

/-- `list.sort(key=..., reverse=True)`: the stable sort putting larger keys
first (a stable sort under a total preorder is uniquely determined, so a
stable insertion sort models Python's stable sort exactly). -/
def pySortByKeyDesc (ps : List Proc) : List Proc :=
  List.insertionSort keyDescRel ps

/-- `snapshot` (gpu_top.py:139) as a function of the three frozen tool
outputs (device query, process query, monitoring sample). -/
def snapshot (gpuOut procOut pmonOut : List Char) :
    List Gpu × List (Int × List Proc) :=
  let gpus := get_gpu_stats gpuOut
  let u2i := uuidToIndex gpus
  let procs := get_compute_processes procOut
  let pmon := get_pmon_once pmonOut
  let enriched := enrich_procs_with_pmon procs pmon u2i
  let per_gpu := buildPerGpu gpus enriched u2i
  (gpus, per_gpu.map fun e => (e.1, pySortByKeyDesc e.2))

/-! ### Basic lemmas -/

theorem obind_none (f : α → Option β) : obind none f = none := rfl

theorem obind_some (a : α) (f : α → Option β) : obind (some a) f = f a := rfl

theorem dictInsert_keys [DecidableEq κ] (m : List (κ × ν)) (k : κ) (v : ν) :
    (dictInsert m k v).map Prod.fst =
      if k ∈ m.map Prod.fst then m.map Prod.fst else m.map Prod.fst ++ [k] := by
  induction m with
  | nil => simp [dictInsert]
  | cons hd tl ih =>
    obtain ⟨a, b⟩ := hd
    by_cases h : a = k
    · subst h
      simp [dictInsert]
    · have h' : ¬ k = a := fun hh => h hh.symm
      rcases Decidable.em (k ∈ tl.map Prod.fst) with hk | hk <;>
        simp [dictInsert, h, h', hk, ih]

theorem mem_dictInsert_keys [DecidableEq κ] {m : List (κ × ν)} {k x : κ} {v : ν} :
    x ∈ (dictInsert m k v).map Prod.fst ↔ x ∈ m.map Prod.fst ∨ x = k := by
  rw [dictInsert_keys]
  split
  · rename_i h
    constructor
    · exact Or.inl
    · rintro (hx | rfl)
      · exact hx
      · exact h
  · simp

theorem nodup_dictInsert_keys [DecidableEq κ] {m : List (κ × ν)} (k : κ) (v : ν)
    (h : (m.map Prod.fst).Nodup) : ((dictInsert m k v).map Prod.fst).Nodup := by
  rw [dictInsert_keys]
  split
  · exact h
  · rename_i hk
    simp [List.nodup_append, h, hk]

theorem dictGet?_eq_none [DecidableEq κ] {m : List (κ × ν)} {k : κ} :
    dictGet? m k = none ↔ k ∉ m.map Prod.fst := by
  induction m with
  | nil => simp [dictGet?]
  | cons hd tl ih =>
    obtain ⟨a, b⟩ := hd
    by_cases h : a = k
    · subst h
      simp [dictGet?]
    · simp only [dictGet?, if_neg h, List.map_cons, List.mem_cons, ih]
      constructor
      · rintro hk (rfl | hm)
        · exact h rfl
        · exact hk hm
      · intro hk hm
        exact hk (Or.inr hm)

theorem mem_keys_of_dictGet? [DecidableEq κ] {m : List (κ × ν)} {k : κ} {v : ν}
    (h : dictGet? m k = some v) : k ∈ m.map Prod.fst := by
  by_contra hk
  rw [dictGet?_eq_none.mpr hk] at h
  cases h

theorem dictInsert_keys_of_mem [DecidableEq κ] {m : List (κ × ν)} {k : κ}
    (h : k ∈ m.map Prod.fst) (v : ν) :
    (dictInsert m k v).map Prod.fst = m.map Prod.fst := by
  rw [dictInsert_keys, if_pos h]

theorem dictGet?_dictInsert_ne [DecidableEq κ] {m : List (κ × ν)} {k k' : κ}
    (h : k ≠ k') (v : ν) :
    dictGet? (dictInsert m k v) k' = dictGet? m k' := by
  induction m with
  | nil => simp [dictInsert, dictGet?, h]
  | cons hd tl ih =>
    obtain ⟨a, b⟩ := hd
    by_cases ha : a = k
    · subst ha
      simp [dictInsert, dictGet?, h]
    · by_cases ha' : a = k' <;>
        simp [dictInsert, dictGet?, ha, ha', ih, Ne.symm h]

theorem obind_eq_some {x : Option α} {f : α → Option β} {b : β} :
    obind x f = some b ↔ ∃ a, x = some a ∧ f a = some b := by
  cases x <;> simp [obind]

theorem mem_dictInsert [DecidableEq κ] {m : List (κ × ν)} {k : κ} {v : ν} :
    ∀ e ∈ dictInsert m k v, e ∈ m ∨ e = (k, v) := by
  induction m with
  | nil =>
    intro e he
    simp only [dictInsert, List.mem_singleton] at he
    exact Or.inr he
  | cons hd tl ih =>
    obtain ⟨a, b⟩ := hd
    intro e he
    by_cases h : a = k
    · subst h
      simp only [dictInsert, if_pos rfl] at he
      rcases List.mem_cons.mp he with he | he
      · exact Or.inr he
      · exact Or.inl (List.mem_cons_of_mem _ he)
    · simp only [dictInsert, if_neg h] at he
      rcases List.mem_cons.mp he with he | he
      · exact Or.inl (List.mem_cons.mpr (Or.inl he))
      · rcases ih e he with hm | hkv
        · exact Or.inl (List.mem_cons_of_mem _ hm)
        · exact Or.inr hkv

theorem mem_of_dictGet? [DecidableEq κ] {m : List (κ × ν)} {k : κ} {v : ν}
    (h : dictGet? m k = some v) : (k, v) ∈ m := by
  induction m with
  | nil => cases h
  | cons hd tl ih =>
    obtain ⟨a, b⟩ := hd
    by_cases ha : a = k
    · subst ha
      have hbv : b = v := by simpa [dictGet?] using h
      subst hbv
      exact List.mem_cons_self _ _
    · simp only [dictGet?, if_neg ha] at h
      exact List.mem_cons_of_mem _ (ih h)

theorem dictGet?_map_values [DecidableEq κ] (m : List (κ × ν)) (f : ν → μ)
    (k : κ) :
    dictGet? (m.map fun e => (e.1, f e.2)) k = (dictGet? m k).map f := by
  induction m with
  | nil => rfl
  | cons hd tl ih =>
    obtain ⟨a, b⟩ := hd
    by_cases ha : a = k <;> simp [dictGet?, ha, ih]

theorem keys_map_values (m : List (κ × ν)) (f : ν → μ) :
    ((m.map fun e => (e.1, f e.2)).map Prod.fst) = m.map Prod.fst := by
  induction m with
  | nil => rfl
  | cons hd tl ih => simp [ih]

theorem initPerGpu_keys_mem (gpus : List Gpu) (m : List (Int × List Proc))
    (x : Int) :
    (x ∈ (gpus.foldl (fun m g => dictInsert m g.index []) m).map Prod.fst) ↔
      x ∈ m.map Prod.fst ∨ x ∈ gpus.map Gpu.index := by
  induction gpus generalizing m with
  | nil => simp
  | cons g t ih =>
    rw [List.foldl_cons, ih]
    simp only [mem_dictInsert_keys, List.map_cons, List.mem_cons]
    tauto

theorem initPerGpu_keys_nodup (gpus : List Gpu) (m : List (Int × List Proc))
    (h : (m.map Prod.fst).Nodup) :
    ((gpus.foldl (fun m g => dictInsert m g.index []) m).map Prod.fst).Nodup := by
  induction gpus generalizing m with
  | nil => exact h
  | cons g t ih => exact ih _ (nodup_dictInsert_keys _ _ h)

theorem initPerGpu_values_nil (gpus : List Gpu) (m : List (Int × List Proc))
    (h : ∀ e ∈ m, e.2 = ([] : List Proc)) :
    ∀ e ∈ gpus.foldl (fun m g => dictInsert m g.index []) m, e.2 = [] := by
  induction gpus generalizing m with
  | nil => exact h
  | cons g t ih =>
    refine ih _ ?_
    intro e he
    rcases mem_dictInsert e he with hm | rfl
    · exact h e hm
    · rfl

theorem groupStep_keys (u2i : List (String × Int))
    (m : List (Int × List Proc)) (p : Proc) :
    (groupStep u2i m p).map Prod.fst = m.map Prod.fst := by
  unfold groupStep
  split
  · split
    · rename_i idx hu ps hm
      exact dictInsert_keys_of_mem (mem_keys_of_dictGet? hm) _
    · rfl
  · rfl

theorem foldl_groupStep_keys (procs : List Proc) (u2i : List (String × Int))
    (m : List (Int × List Proc)) :
    (procs.foldl (groupStep u2i) m).map Prod.fst = m.map Prod.fst := by
  induction procs generalizing m with
  | nil => rfl
  | cons p t ih => rw [List.foldl_cons, ih, groupStep_keys]

theorem groupStep_get_untouched (u2i : List (String × Int))
    (m : List (Int × List Proc)) (p : Proc) (idx : Int)
    (h : dictGet? u2i p.uuid ≠ some idx) :
    dictGet? (groupStep u2i m p) idx = dictGet? m idx := by
  unfold groupStep
  split
  · rename_i j hu
    have hj : j ≠ idx := fun hji => h (hji ▸ hu)
    split
    · exact dictGet?_dictInsert_ne hj _
    · rfl
  · rfl

theorem foldl_groupStep_get_untouched (procs : List Proc)
    (u2i : List (String × Int)) (idx : Int) :
    ∀ m : List (Int × List Proc),
      (∀ p ∈ procs, dictGet? u2i p.uuid ≠ some idx) →
      dictGet? (procs.foldl (groupStep u2i) m) idx = dictGet? m idx := by
  induction procs with
  | nil => exact fun m _ => rfl
  | cons p t ih =>
    intro m h
    rw [List.foldl_cons, ih _ (fun q hq => h q (List.mem_cons_of_mem _ hq)),
      groupStep_get_untouched _ _ _ _ (h p (List.mem_cons_self _ _))]

theorem parseProcRow_null {r : List (List Char)} {p : Proc}
    (h : parseProcRow r = some p) : p.sm = none ∧ p.mem_util = none := by
  simp only [parseProcRow, obind_eq_some, Option.some.injEq] at h
  obtain ⟨s0, _, pid, _, n, _, m, _, mem, _, uuid, _, rfl⟩ := h
  exact ⟨rfl, rfl⟩

theorem proc_query_null_util {out : List Char} {p : Proc}
    (hp : p ∈ get_compute_processes out) : p.sm = none ∧ p.mem_util = none := by
  obtain ⟨r, _, hpr⟩ := List.mem_filterMap.mp hp
  exact parseProcRow_null hpr

theorem keys_foldl_dictInsert_sub [DecidableEq κ] (l : List (κ × ν)) :
    ∀ (m : List (κ × ν)) (k : κ),
      k ∈ ((l.foldl (fun m kv => dictInsert m kv.1 kv.2) m).map Prod.fst) →
        k ∈ m.map Prod.fst ∨ k ∈ l.map Prod.fst := by
  induction l with
  | nil => exact fun m k hm => Or.inl hm
  | cons kv t ih =>
    intro m k hm
    rw [List.foldl_cons] at hm
    rcases ih (dictInsert m kv.1 kv.2) k hm with hi | ht
    · rcases mem_dictInsert_keys.mp hi with hm' | rfl
      · exact Or.inl hm'
      · exact Or.inr (by simp)
    · exact Or.inr (List.mem_cons_of_mem _ ht)

theorem mem_keys_dictOf [DecidableEq κ] {l : List (κ × ν)} {k : κ}
    (h : k ∈ (dictOf l).map Prod.fst) : k ∈ l.map Prod.fst := by
  rcases keys_foldl_dictInsert_sub l [] k h with hm | hl
  · cases hm
  · exact hl

theorem pmonIx_key_fst_isSome {pmon : List Pmon} {k : Option Int × Int}
    (h : k ∈ (pmonIx pmon).map Prod.fst) : k.1.isSome := by
  have h2 := mem_keys_dictOf h
  simp only [List.map_filterMap, List.mem_filterMap] at h2
  obtain ⟨e, _, he⟩ := h2
  rcases hp : e.pid with _ | pv
  · rw [hp] at he
    cases he
  · rw [hp] at he
    have hk := Option.some.inj he
    subst hk
    rfl

/-- A join key with a null device index (an unknown uuid) can never hit the
utilization lookup: all its keys carry a concrete device index. -/
theorem pmonIx_get_none_fst (pmon : List Pmon) (pid : Int) :
    dictGet? (pmonIx pmon) (none, pid) = none := by
  rw [dictGet?_eq_none]
  intro hmem
  have := pmonIx_key_fst_isSome hmem
  simp at this

/-! ### Claims -/

/-- C7: the command runner is a total function of the execution outcome —
it never raises.  A missing binary yields the empty string, a non-zero
exit still yields the captured (merged stdout/stderr) text, and a normal
exit yields the captured text. -/
theorem runCmd_never_raises (out : String) :
    runCmd .missingBinary = "" ∧
    runCmd (.nonzeroExit out) = out ∧
    runCmd (.ok out) = out :=
  ⟨rfl, rfl, rfl⟩

/-- C8: over fixed, identical tool outputs, two `snapshot` calls produce
identical snapshots — same device sequence, same per-device process
ordering, same join results. -/
theorem snapshot_deterministic (g p m g' p' m' : List Char)
    (hg : g = g') (hp : p = p') (hm : m = m') :
    snapshot g p m = snapshot g' p' m' := by
  subst hg; subst hp; subst hm; rfl

theorem snapshot_deterministic_witness :
    snapshot "GPU-1, 0, Card, 50, 10, 100, 200, N/A, N/A, N/A, N/A".data
        "100, app, 512, GPU-1".data "0 100 C 80 40 - - 0 app".data =
      snapshot "GPU-1, 0, Card, 50, 10, 100, 200, N/A, N/A, N/A, N/A".data
        "100, app, 512, GPU-1".data "0 100 C 80 40 - - 0 app".data :=
  snapshot_deterministic _ _ _ _ _ _ rfl rfl rfl

/-- C5 counterexample: a monitoring line whose pid field is the "no
process" sentinel `-` is NOT dropped by `get_pmon_once` — it appears in
the sampler's output (with a null pid). -/
theorem pmon_keeps_sentinel_pid_row :
    get_pmon_once "0 - C - - - - 0 -".data =
      [{ gpu := 0, pid := none, sm := none, mem := none, cmd := "-" }] := by
  decide

/-- C5 amended: sentinel-pid monitoring rows are kept by the sampler (with
a null pid) rather than dropped, but they contribute nothing to the join —
enrichment gives the same result whether or not the null-pid samples are
removed first. -/
theorem sentinel_pid_rows_never_join (procs : List Proc) (pmon : List Pmon)
    (u2i : List (String × Int)) :
    enrich_procs_with_pmon procs pmon u2i =
      enrich_procs_with_pmon procs (pmon.filter fun e => e.pid.isSome) u2i := by
  unfold enrich_procs_with_pmon
  suffices h : pmonIx (pmon.filter fun e => e.pid.isSome) = pmonIx pmon by rw [h]
  unfold pmonIx
  congr 1
  induction pmon with
  | nil => rfl
  | cons e t ih => cases hp : e.pid <;> simp [hp, ih]

theorem tupLe_iff (a b : Int × Int) :
    tupLe a b = true ↔ a.1 < b.1 ∨ (a.1 = b.1 ∧ a.2 ≤ b.2) := by
  simp [tupLe]

instance : IsTotal Proc keyDescRel :=
  ⟨fun a b => by
    unfold keyDescRel
    rw [tupLe_iff, tupLe_iff]
    omega⟩

instance : IsTrans Proc keyDescRel :=
  ⟨fun a b c hab hbc => by
    unfold keyDescRel at *
    rw [tupLe_iff] at *
    omega⟩

/-- C1 counterexample: a process and a utilization sample can share the
`(deviceIndex, pid)` key while the snapshot's record still has a NULL
`smUtilPercent` — the sample itself carried the `-` sentinel for sm.  The
pmon output below has a sample with key `(0, 100)` and `sm = -`; the
snapshot's only process record (pid 100, device 0) ends with `sm = none`. -/
theorem join_match_can_leave_sm_null :
    ((get_pmon_once "0 100 C - 40 - - 0 app".data).any
      fun e => e.gpu == 0 && e.pid == some 100) = true ∧
    (snapshot "GPU-1, 0, Card, 50, 10, 100, 200, N/A, N/A, N/A, N/A".data
        "100, app, 512, GPU-1".data
        "0 100 C - 40 - - 0 app".data).2.map
      (fun e => (e.1, e.2.map fun p => (p.pid, p.sm))) = [(0, [(100, none)])] :=
  ⟨by decide, by decide⟩

/-- C1 amended: a process record whose resolved `(deviceIndex, pid)` key
is in the utilization lookup gets exactly the looked-up sample's `sm`/`mem`
values — which are themselves null when that sample carried the sentinel —
and a process record whose key misses the lookup keeps both fields null. -/
theorem join_uses_matching_sample (procOut : List Char) (pmon : List Pmon)
    (u2i : List (String × Int)) (i : Nat) (p : Proc)
    (hp : (get_compute_processes procOut)[i]? = some p) :
    ∃ q, (enrich_procs_with_pmon (get_compute_processes procOut) pmon u2i)[i]? =
        some q ∧
      (∀ e, dictGet? (pmonIx pmon) (dictGet? u2i p.uuid, p.pid) = some e →
        q.sm = e.sm ∧ q.mem_util = e.mem) ∧
      (dictGet? (pmonIx pmon) (dictGet? u2i p.uuid, p.pid) = none →
        q.sm = none ∧ q.mem_util = none) := by
  unfold enrich_procs_with_pmon
  rw [List.getElem?_map, hp]
  refine ⟨_, rfl, ?_, ?_⟩
  · intro e he
    simp [he]
  · intro he
    simp only [Option.map_some', he]
    exact proc_query_null_util (List.getElem?_mem hp)

theorem join_uses_matching_sample_witness :
    ∃ q, (enrich_procs_with_pmon
        (get_compute_processes "100, app, 512, GPU-1".data)
        [⟨0, some 100, some 80, some 40, "app"⟩] [("GPU-1", 0)])[0]? = some q ∧
      q.sm = some 80 ∧ q.mem_util = some 40 := by
  obtain ⟨q, hq, hmatch, _⟩ := join_uses_matching_sample
    "100, app, 512, GPU-1".data [⟨0, some 100, some 80, some 40, "app"⟩]
    [("GPU-1", 0)] 0 ⟨100, "app", 512, "GPU-1", none, none⟩ (by decide)
  have hv := hmatch ⟨0, some 100, some 80, some 40, "app"⟩ (by decide)
  exact ⟨q, hq, hv.1, hv.2⟩

/-- C4: every device group of the snapshot is sorted descending
lexicographically by `(sm ?? 0, memoryMiB)` — adjacent pairs satisfy
`key b <= key a` — and is a permutation of the group built before the
sort, so the stored records (including null `sm` fields) are unchanged
by sorting. -/
theorem per_device_procs_sorted (gpuOut procOut pmonOut : List Char)
    (idx : Int) (ps : List Proc)
    (h : (idx, ps) ∈ (snapshot gpuOut procOut pmonOut).2) :
    List.Chain' (fun a b => tupLe (procKey b) (procKey a) = true) ps ∧
    ∃ ps₀, (idx, ps₀) ∈ buildPerGpu (get_gpu_stats gpuOut)
        (enrich_procs_with_pmon (get_compute_processes procOut)
          (get_pmon_once pmonOut) (uuidToIndex (get_gpu_stats gpuOut)))
        (uuidToIndex (get_gpu_stats gpuOut)) ∧ ps.Perm ps₀ := by
  obtain ⟨e, he, heq⟩ := List.mem_map.mp h
  have hidx : e.1 = idx := congrArg Prod.fst heq
  have hps : pySortByKeyDesc e.2 = ps := congrArg Prod.snd heq
  constructor
  · rw [← hps]
    exact (List.sorted_insertionSort keyDescRel e.2).chain'
  · refine ⟨e.2, ?_, ?_⟩
    · rw [← hidx]
      simpa using he
    · rw [← hps]
      exact List.perm_insertionSort keyDescRel e.2

theorem per_device_procs_sorted_witness :
    List.Chain' (fun a b => tupLe (procKey b) (procKey a) = true)
      [⟨100, "app", 512, "GPU-1", some 80, some 40⟩,
       ⟨200, "oth", 256, "GPU-1", none, none⟩] :=
  (per_device_procs_sorted
    "GPU-1, 0, Card, 50, 10, 100, 200, N/A, N/A, N/A, N/A".data
    ("100, app, 512, GPU-1\n200, oth, 256, GPU-1".data)
    ("# gpu pid type sm mem enc dec fb command\n0 100 C 80 40 - - 0 app".data)
    0
    [⟨100, "app", 512, "GPU-1", some 80, some 40⟩,
     ⟨200, "oth", 256, "GPU-1", none, none⟩]
    (by decide)).1

/-- C2: the per-device grouping of every snapshot has exactly one key per
device index appearing in `devices` — its keys are duplicate-free and are
exactly the device indices, with an entry (an empty sequence) even for a
device no process resolved to — and no process group sits under a key
outside the device indices. -/
theorem per_gpu_keys_match_devices (gpuOut procOut pmonOut : List Char) :
    ((snapshot gpuOut procOut pmonOut).2.map Prod.fst).Nodup ∧
    (∀ idx : Int, idx ∈ (snapshot gpuOut procOut pmonOut).2.map Prod.fst ↔
      idx ∈ (snapshot gpuOut procOut pmonOut).1.map Gpu.index) ∧
    (∀ idx : Int, idx ∈ (snapshot gpuOut procOut pmonOut).1.map Gpu.index →
      (∀ p ∈ enrich_procs_with_pmon (get_compute_processes procOut)
          (get_pmon_once pmonOut) (uuidToIndex (get_gpu_stats gpuOut)),
        dictGet? (uuidToIndex (get_gpu_stats gpuOut)) p.uuid ≠ some idx) →
      dictGet? (snapshot gpuOut procOut pmonOut).2 idx = some []) := by
  have hkeys : (snapshot gpuOut procOut pmonOut).2.map Prod.fst =
      (initPerGpu (get_gpu_stats gpuOut)).map Prod.fst := by
    show ((buildPerGpu _ _ _).map fun e => (e.1, pySortByKeyDesc e.2)).map Prod.fst = _
    rw [keys_map_values]
    exact foldl_groupStep_keys _ _ _
  refine ⟨?_, ?_, ?_⟩
  · rw [hkeys]
    exact initPerGpu_keys_nodup _ _ (by simp)
  · intro idx
    rw [hkeys]
    unfold initPerGpu
    rw [initPerGpu_keys_mem]
    simp [snapshot]
  · intro idx hidx hno
    have hkey : idx ∈ (initPerGpu (get_gpu_stats gpuOut)).map Prod.fst := by
      unfold initPerGpu
      rw [initPerGpu_keys_mem]
      exact Or.inr hidx
    have hb : dictGet? (buildPerGpu (get_gpu_stats gpuOut)
        (enrich_procs_with_pmon (get_compute_processes procOut)
          (get_pmon_once pmonOut) (uuidToIndex (get_gpu_stats gpuOut)))
        (uuidToIndex (get_gpu_stats gpuOut))) idx = some [] := by
      unfold buildPerGpu
      rw [foldl_groupStep_get_untouched _ _ _ _ hno]
      rcases hv : dictGet? (initPerGpu (get_gpu_stats gpuOut)) idx with _ | v
      · exact absurd hkey (dictGet?_eq_none.mp hv)
      · have hnil : (idx, v).2 = [] :=
          initPerGpu_values_nil (get_gpu_stats gpuOut) [] (by simp)
            (idx, v) (mem_of_dictGet? hv)
        rw [show v = [] from hnil]
    show dictGet? ((buildPerGpu _ _ _).map fun e => (e.1, pySortByKeyDesc e.2)) idx = _
    rw [dictGet?_map_values, hb]
    simp [pySortByKeyDesc]

theorem per_gpu_keys_match_devices_witness :
    dictGet? (snapshot ("GPU-1, 0, A, 50, 10, 100, 200, N/A, N/A, N/A, N/A\nGPU-2, 1, B, 50, 10, 100, 200, N/A, N/A, N/A, N/A".data)
      "100, app, 512, GPU-1".data "".data).2 1 = some [] :=
  (per_gpu_keys_match_devices _ _ _).2.2 1 (by decide) (by decide)

/-- C9: a process whose device uuid is absent from the uuid-to-index
mapping keeps null utilization fields through reconciliation — its join
key carries a null device index, which no utilization-sample key ever
has. -/
theorem unknown_uuid_keeps_null_util (procOut : List Char) (pmon : List Pmon)
    (u2i : List (String × Int)) (p : Proc)
    (hp : p ∈ enrich_procs_with_pmon (get_compute_processes procOut) pmon u2i)
    (hu : dictGet? u2i p.uuid = none) :
    p.sm = none ∧ p.mem_util = none := by
  unfold enrich_procs_with_pmon at hp
  obtain ⟨q, hq, hfq⟩ := List.mem_map.mp hp
  have huuid : p.uuid = q.uuid := by
    rw [← hfq]
    split <;> rfl
  rw [huuid] at hu
  rw [hu, pmonIx_get_none_fst] at hfq
  subst hfq
  exact proc_query_null_util hq

theorem unknown_uuid_keeps_null_util_witness :
    (⟨100, "app", 512, "GPU-X", none, none⟩ : Proc).sm = none ∧
    (⟨100, "app", 512, "GPU-X", none, none⟩ : Proc).mem_util = none :=
  unknown_uuid_keeps_null_util "100, app, 512, GPU-X".data
    [⟨0, some 100, some 80, some 40, "c"⟩] [("GPU-1", 0)]
    ⟨100, "app", 512, "GPU-X", none, none⟩ (by decide) (by decide)

/-- C3 counterexample: `snapshot` does not reorder devices — with the
device query reporting index 1 before index 0, the `devices` sequence is
`[1, 0]`, so adjacent devices are not in ascending index order. -/
theorem devices_not_sorted_by_index :
    (snapshot ("GPU-B, 1, B, 50, 10, 100, 200, N/A, N/A, N/A, N/A\nGPU-A, 0, A, 50, 10, 100, 200, N/A, N/A, N/A, N/A".data)
        "".data "".data).1.map Gpu.index = [1, 0] ∧
    ¬ List.Chain' (fun a b : Gpu => a.index < b.index)
        (snapshot ("GPU-B, 1, B, 50, 10, 100, 200, N/A, N/A, N/A, N/A\nGPU-A, 0, A, 50, 10, 100, 200, N/A, N/A, N/A, N/A".data)
          "".data "".data).1 := by
  constructor
  · decide
  · intro hch
    have hm : List.Chain' (fun a b : Int => a < b)
        ((snapshot ("GPU-B, 1, B, 50, 10, 100, 200, N/A, N/A, N/A, N/A\nGPU-A, 0, A, 50, 10, 100, 200, N/A, N/A, N/A, N/A".data)
          "".data "".data).1.map Gpu.index) :=
      (List.chain'_map Gpu.index).mpr hch
    rw [show (snapshot ("GPU-B, 1, B, 50, 10, 100, 200, N/A, N/A, N/A, N/A\nGPU-A, 0, A, 50, 10, 100, 200, N/A, N/A, N/A, N/A".data)
        "".data "".data).1.map Gpu.index = [1, 0] by decide] at hm
    exact absurd (List.chain'_cons.mp hm).1 (by decide)

/-- C3 amended: the `devices` sequence preserves the row order of the
device query output (it is exactly the successfully parsed rows, in order);
in particular, when the query's well-formed rows arrive in ascending index
order, `devices` is ascending by index. -/
theorem devices_in_query_row_order (gpuOut procOut pmonOut : List Char) :
    (snapshot gpuOut procOut pmonOut).1 = (parse_csv gpuOut).filterMap parseGpuRow ∧
    (List.Chain' (fun a b : Gpu => a.index < b.index) (get_gpu_stats gpuOut) →
      List.Chain' (fun a b : Gpu => a.index < b.index)
        (snapshot gpuOut procOut pmonOut).1) :=
  ⟨rfl, fun h => h⟩

theorem devices_in_query_row_order_witness :
    List.Chain' (fun a b : Gpu => a.index < b.index)
      (snapshot ("GPU-A, 0, A, 50, 10, 100, 200, N/A, N/A, N/A, N/A\nGPU-B, 1, B, 50, 10, 100, 200, N/A, N/A, N/A, N/A".data)
        "".data "".data).1 := by
  refine (devices_in_query_row_order _ _ _).2 ?_
  rw [show get_gpu_stats ("GPU-A, 0, A, 50, 10, 100, 200, N/A, N/A, N/A, N/A\nGPU-B, 1, B, 50, 10, 100, 200, N/A, N/A, N/A, N/A".data) =
      [⟨"GPU-A", 0, "A", 50, 10, 100, 200, none, none, none, none⟩,
       ⟨"GPU-B", 1, "B", 50, 10, 100, 200, none, none, none, none⟩] by decide]
  exact List.chain'_pair.mpr (by decide)

/-- C6: device rows are parsed independently with exact field-for-field
conversion.  A row whose required field (index, temperature, utilization,
memory used/total) fails integer conversion parses to nothing; a dropped
row does not affect the records produced for sibling rows; an 11-field row
whose conversions all succeed yields exactly the converted record; and a
10-field row (fan-speed column absent) still yields a record, with fan
speed null. -/
theorem device_rows_independent :
    (∀ (i : Nat) (r : List (List Char)), i ∈ [1, 3, 4, 5, 6] →
      (∃ s, r[i]? = some s ∧ pyInt? s = none) → parseGpuRow r = none) ∧
    (∀ (pre post : List (List (List Char))) (bad : List (List Char)),
      parseGpuRow bad = none →
        (pre ++ bad :: post).filterMap parseGpuRow =
          (pre ++ post).filterMap parseGpuRow) ∧
    (∀ u ixs nm ts us mus mts pw pl sc fs : List Char,
     ∀ (ixv tv uv muv mtv : Int) (pwv plv : Option Rat) (scv fsv : Option Int),
      pyInt? ixs = some ixv → pyInt? ts = some tv → pyInt? us = some uv →
      pyInt? mus = some muv → pyInt? mts = some mtv →
      optOf pyFloat? pw = some pwv → optOf pyFloat? pl = some plv →
      optOf pyInt? sc = some scv → optOf pyInt? fs = some fsv →
      parseGpuRow [u, ixs, nm, ts, us, mus, mts, pw, pl, sc, fs] =
        some ⟨⟨u⟩, ixv, ⟨nm⟩, tv, uv, muv, mtv, pwv, plv, scv, fsv⟩) ∧
    (∀ u ixs nm ts us mus mts pw pl sc : List Char,
     ∀ (ixv tv uv muv mtv : Int) (pwv plv : Option Rat) (scv : Option Int),
      pyInt? ixs = some ixv → pyInt? ts = some tv → pyInt? us = some uv →
      pyInt? mus = some muv → pyInt? mts = some mtv →
      optOf pyFloat? pw = some pwv → optOf pyFloat? pl = some plv →
      optOf pyInt? sc = some scv →
      parseGpuRow [u, ixs, nm, ts, us, mus, mts, pw, pl, sc] =
        some ⟨⟨u⟩, ixv, ⟨nm⟩, tv, uv, muv, mtv, pwv, plv, scv, none⟩) := by
  refine ⟨?_, ?_, ?_, ?_⟩
  · intro i r hi hex
    obtain ⟨s, hs, hbad⟩ := hex
    rcases hg : parseGpuRow r with _ | g
    · rfl
    exfalso
    simp only [parseGpuRow, obind_eq_some, Option.some.injEq] at hg
    obtain ⟨uuid, h0, s1, h1, ixv, hix, nm, h2, s3, h3, tv, ht, s4, h4, uv, hu4,
      s5, h5, muv, hm5, s6, h6, mtv, hm6, -⟩ := hg
    fin_cases hi
    · rw [h1] at hs
      cases Option.some.inj hs
      rw [hbad] at hix
      cases hix
    · rw [h3] at hs
      cases Option.some.inj hs
      rw [hbad] at ht
      cases ht
    · rw [h4] at hs
      cases Option.some.inj hs
      rw [hbad] at hu4
      cases hu4
    · rw [h5] at hs
      cases Option.some.inj hs
      rw [hbad] at hm5
      cases hm5
    · rw [h6] at hs
      cases Option.some.inj hs
      rw [hbad] at hm6
      cases hm6
  · intro pre post bad h
    simp [List.filterMap_append, List.filterMap_cons_none, h]
  · intro u ixs nm ts us mus mts pw pl sc fs ixv tv uv muv mtv pwv plv scv fsv
      hix ht hu hmu hmt hpw hpl hsc hfs
    exact obind_eq_some.mpr ⟨u, rfl,
      obind_eq_some.mpr ⟨ixs, rfl, obind_eq_some.mpr ⟨ixv, hix,
      obind_eq_some.mpr ⟨nm, rfl,
      obind_eq_some.mpr ⟨ts, rfl, obind_eq_some.mpr ⟨tv, ht,
      obind_eq_some.mpr ⟨us, rfl, obind_eq_some.mpr ⟨uv, hu,
      obind_eq_some.mpr ⟨mus, rfl, obind_eq_some.mpr ⟨muv, hmu,
      obind_eq_some.mpr ⟨mts, rfl, obind_eq_some.mpr ⟨mtv, hmt,
      obind_eq_some.mpr ⟨pw, rfl, obind_eq_some.mpr ⟨pwv, hpw,
      obind_eq_some.mpr ⟨pl, rfl, obind_eq_some.mpr ⟨plv, hpl,
      obind_eq_some.mpr ⟨sc, rfl, obind_eq_some.mpr ⟨scv, hsc,
      obind_eq_some.mpr ⟨fsv, hfs, rfl⟩⟩⟩⟩⟩⟩⟩⟩⟩⟩⟩⟩⟩⟩⟩⟩⟩⟩⟩
  · intro u ixs nm ts us mus mts pw pl sc ixv tv uv muv mtv pwv plv scv
      hix ht hu hmu hmt hpw hpl hsc
    exact obind_eq_some.mpr ⟨u, rfl,
      obind_eq_some.mpr ⟨ixs, rfl, obind_eq_some.mpr ⟨ixv, hix,
      obind_eq_some.mpr ⟨nm, rfl,
      obind_eq_some.mpr ⟨ts, rfl, obind_eq_some.mpr ⟨tv, ht,
      obind_eq_some.mpr ⟨us, rfl, obind_eq_some.mpr ⟨uv, hu,
      obind_eq_some.mpr ⟨mus, rfl, obind_eq_some.mpr ⟨muv, hmu,
      obind_eq_some.mpr ⟨mts, rfl, obind_eq_some.mpr ⟨mtv, hmt,
      obind_eq_some.mpr ⟨pw, rfl, obind_eq_some.mpr ⟨pwv, hpw,
      obind_eq_some.mpr ⟨pl, rfl, obind_eq_some.mpr ⟨plv, hpl,
      obind_eq_some.mpr ⟨sc, rfl, obind_eq_some.mpr ⟨scv, hsc,
      obind_eq_some.mpr ⟨none, rfl, rfl⟩⟩⟩⟩⟩⟩⟩⟩⟩⟩⟩⟩⟩⟩⟩⟩⟩⟩⟩

theorem device_rows_independent_witness :
    parseGpuRow (["u", "x", "A", "50", "10", "100", "200", "N/A", "N/A",
      "N/A", "N/A"].map String.data) = none ∧
    ((["GPU-1", "0", "A", "50", "10", "100", "200", "N/A", "N/A", "N/A",
        "N/A"].map String.data) ::
      (["u", "x", "A", "50", "10", "100", "200", "N/A", "N/A", "N/A",
        "N/A"].map String.data) :: []).filterMap parseGpuRow =
      ((["GPU-1", "0", "A", "50", "10", "100", "200", "N/A", "N/A", "N/A",
        "N/A"].map String.data) :: []).filterMap parseGpuRow ∧
    parseGpuRow (["GPU-1", "0", "A", "50", "10", "100", "200", "N/A", "N/A",
      "1500", "N/A"].map String.data) =
      some ⟨"GPU-1", 0, "A", 50, 10, 100, 200, none, none, some 1500, none⟩ ∧
    parseGpuRow (["GPU-1", "0", "A", "50", "10", "100", "200", "N/A", "N/A",
      "N/A"].map String.data) =
      some ⟨"GPU-1", 0, "A", 50, 10, 100, 200, none, none, none, none⟩ := by
  refine ⟨?_, ?_, ?_, ?_⟩
  · exact device_rows_independent.1 1 _ (by decide)
      ⟨"x".data, by decide, by decide⟩
  · exact device_rows_independent.2.1 [_] [] _
      (device_rows_independent.1 1 _ (by decide) ⟨"x".data, by decide, by decide⟩)
  · exact device_rows_independent.2.2.1 "GPU-1".data "0".data "A".data
      "50".data "10".data "100".data "200".data "N/A".data "N/A".data
      "1500".data "N/A".data 0 50 10 100 200 none none (some 1500) none
      (by decide) (by decide) (by decide) (by decide) (by decide)
      (by decide) (by decide) (by decide) (by decide)
  · exact device_rows_independent.2.2.2 "GPU-1".data "0".data "A".data
      "50".data "10".data "100".data "200".data "N/A".data "N/A".data
      "N/A".data 0 50 10 100 200 none none none
      (by decide) (by decide) (by decide) (by decide) (by decide)
      (by decide) (by decide) (by decide)

/-- C10: a monitoring row with at least nine fields whose device-index,
pid, sm or mem field is neither the `-` sentinel nor a parseable integer
parses to nothing; such a dropped line does not affect the samples
produced for the other lines; and `get_pmon_once` is exactly the
line-by-line parse of its input. -/
theorem bad_pmon_field_drops_row :
    (∀ (i : Nat) (parts : List (List Char)), 9 ≤ parts.length →
      i ∈ [0, 1, 3, 4] →
      (∃ s, parts[i]? = some s ∧ s ≠ "-".data ∧ pyInt? s = none) →
      parsePmonRow parts = none) ∧
    (∀ (pre post : List (List Char)) (bad : List Char),
      parsePmonRow (splitWs (trimChars bad)) = none →
        (pre ++ bad :: post).filterMap pmonLine? =
          (pre ++ post).filterMap pmonLine?) ∧
    (∀ out : List Char,
      get_pmon_once out = (splitBy (· = '\n') out).filterMap pmonLine?) := by
  refine ⟨?_, ?_, fun _ => rfl⟩
  · intro i parts hlen hi hex
    obtain ⟨s, hs, hne, hbad⟩ := hex
    rcases hg : parsePmonRow parts with _ | g
    · rfl
    exfalso
    have hlt : ¬ parts.length < 9 := by omega
    simp only [parsePmonRow, if_neg hlt, obind_eq_some, Option.some.injEq] at hg
    obtain ⟨s0, h0, gpu, hgpu, p1, hp1, pidv, hpid, p3, hp3, smv, hsm,
      p4, hp4, memv, hmem, -⟩ := hg
    fin_cases hi
    · rw [h0] at hs
      cases Option.some.inj hs
      rw [hbad] at hgpu
      cases hgpu
    · rw [hp1] at hs
      cases Option.some.inj hs
      rw [if_neg hne, hbad] at hpid
      simp at hpid
    · rw [hp3] at hs
      cases Option.some.inj hs
      rw [if_neg hne, hbad] at hsm
      simp at hsm
    · rw [hp4] at hs
      cases Option.some.inj hs
      rw [if_neg hne, hbad] at hmem
      simp at hmem
  · intro pre post bad h
    have hl : pmonLine? bad = none := by
      by_cases hc : ((trimChars bad).isEmpty || startsHash (trimChars bad)) = true
      · simp [pmonLine?, hc]
      · simp [pmonLine?, hc, h]
    simp [List.filterMap_append, List.filterMap_cons_none, hl]

theorem bad_pmon_field_drops_row_witness :
    parsePmonRow (["0", "x", "C", "-", "-", "-", "-", "0", "c"].map
      String.data) = none ∧
    (("0 80 C 10 20 - - 0 good".data :: "0 x C - - - - 0 c".data :: []).filterMap
      pmonLine? =
      ("0 80 C 10 20 - - 0 good".data :: []).filterMap pmonLine?) ∧
    get_pmon_once "".data = (splitBy (· = '\n') "".data).filterMap pmonLine? := by
  refine ⟨?_, ?_, bad_pmon_field_drops_row.2.2 "".data⟩
  · exact bad_pmon_field_drops_row.1 1 _ (by decide) (by decide)
      ⟨"x".data, by decide, by decide, by decide⟩
  · exact bad_pmon_field_drops_row.2.1 ["0 80 C 10 20 - - 0 good".data] []
      "0 x C - - - - 0 c".data (by decide)

end GpuTop
